import Mathlib

/-!
Verification development for the index-management dashboards plugin.

The development shallowly embeds the data model and operations of four
source files:

* `AliasSelect/index.tsx` (the `AliasSelect` component and the
  `IndexDetail` component that the same file contains),
* `Indices.tsx` (the `Indices` list container),
* the `SimplePopover`/`CreatePolicy` file,
* the `JSONDiffEditor` interface.

JavaScript objects are embedded as association lists `List (String × Json)`
whose assignment semantics (`jsSet`) replaces the value of an existing key
in place and appends a fresh key at the end, exactly as JS property
assignment and object spread behave for string keys.  JSON numbers are
modelled as integers, which covers every number appearing in the embedded
settings and policies.
-/

/-- JSON values, the data the components move around.  Objects are
association lists in insertion order, like JavaScript objects. -/
inductive Json where
  | null : Json
  | bool (b : Bool) : Json
  | num (n : Int) : Json
  | str (s : String) : Json
  | arr (items : List Json) : Json
  | obj (fields : List (String × Json)) : Json
deriving Inhabited

/-- A JavaScript object: fields in insertion order. -/
abbrev JsObj := List (String × Json)

/-- First-occurrence lookup of a key, i.e. JS property read. -/
def jsLookup : JsObj → String → Option Json
  | [], _ => none
  | (k0, v0) :: rest, k => if k0 = k then some v0 else jsLookup rest k

/-- JS property assignment on an object literal: replace the value of an
existing key in place, append a fresh key at the end. -/
def jsSet : JsObj → String → Json → JsObj
  | [], k, v => [(k, v)]
  | (k0, v0) :: rest, k, v => if k0 = k then (k0, v) :: rest else (k0, v0) :: jsSet rest k v

/-- Object spread `\x7b...dst, ...src\x7d`: assign every field of `src` into
`dst`, left to right. -/
def jsSpread (dst src : JsObj) : JsObj :=
  src.foldl (fun acc kv => jsSet acc kv.1 kv.2) dst

/-- The keys of an object, in order. -/
def jsKeys (l : JsObj) : List String := l.map Prod.fst

/-- JavaScript `x || d`: the default replaces `undefined` (here `none`) and
the falsy values `null`, `false`, `""` and `0`. -/
def jsOrDefault (o : Option Json) (d : Json) : Json :=
  match o with
  | none => d
  | some Json.null => d
  | some (Json.bool false) => d
  | some (Json.str "") => d
  | some (Json.num 0) => d
  | some j => j

/-- Member read `j.k` on a JSON value that may not be an object. -/
def jsGetField (j : Json) (k : String) : Option Json :=
  match j with
  | Json.obj kvs => jsLookup kvs k
  | _ => none

/-- `[...new Set(l)]`: keep the first occurrence of each element. -/
def jsDedup (l : List String) : List String :=
  l.foldl (fun acc x => if x ∈ acc then acc else acc ++ [x]) []

/-! ## AliasSelect (`AliasSelect/index.tsx`, first component) -/

/-- A combo-box option `\x7b label \x7d`. -/
structure LabelItem where
  label : String
deriving DecidableEq

/-- `transformObjToArray` (AliasSelect lines 19-21): the keys of the alias
object, wrapped as labels. -/
def transformObjToArray (obj : JsObj) : List LabelItem :=
  (jsKeys obj).map (fun label => ⟨label⟩)

/-- `transformArrayToObj` (AliasSelect lines 22-24):
`array.reduce((total, current) => (\x7b...total, [current.label]: \x7b\x7d\x7d), \x7b\x7d)`. -/
def transformArrayToObj (array : List LabelItem) : JsObj :=
  array.foldl (fun total current => jsSet total current.label (Json.obj [])) []

/-- A `ServerResponse<T>`: either `ok` with a payload or a failure with an
error string. -/
inductive SResp (α : Type) where
  | ok (response : α) : SResp α
  | fail (error : String) : SResp α
deriving DecidableEq

/-- One row of the alias listing returned by the backend. -/
structure AliasRow where
  «alias» : String
deriving DecidableEq

/-- `refreshOptions` inside `AliasSelect` (lines 28-43).  The system-alias
patterns of `filterByMinimatch(item, SYSTEM_ALIAS)` live outside src/, so
the match is abstracted as the predicate `isSystemAlias`. -/
def refreshOptions (isSystemAlias : String → Bool) (res : SResp (List AliasRow)) :
    SResp (List LabelItem) :=
  match res with
  | SResp.ok items =>
      SResp.ok ((jsDedup ((items.map AliasRow.«alias»).filter (fun item => !isSystemAlias item))).map
        (fun item => ⟨item⟩))
  | SResp.fail e => SResp.fail e

/-! ## `getOrderedJson` (IndexDetail lines 119-123) -/

/-- The comparator `(a, b) => (a[0] < b[0] ? -1 : 1)` sorts entries by key;
on the duplicate-free key lists of JS objects this is the ascending order
by key. -/
def entryLe (a b : String × Json) : Prop := a.1 ≤ b.1

instance : DecidableRel entryLe := fun a b => inferInstanceAs (Decidable (a.1 ≤ b.1))

instance : IsTotal (String × Json) entryLe := ⟨fun a b => le_total a.1 b.1⟩

instance : IsTrans (String × Json) entryLe := ⟨fun _ _ _ h h' => le_trans h h'⟩

/-- `getOrderedJson`: sort the entries by key, then rebuild the object with
`reduce`/spread. -/
def getOrderedJson (json : JsObj) : JsObj :=
  jsSpread [] (List.insertionSort entryLe json)

/-! ## lodash `merge` -/

mutual

/-- lodash `merge(dst, src)` on JSON values: objects merge key-wise, arrays
merge index-wise, anything else is replaced by the source value. -/
def jsonMergeVal : Json → Json → Json
  | Json.obj d, Json.obj s => Json.obj (mergeObjInto d s)
  | Json.arr d, Json.arr s => Json.arr (mergeArr d s)
  | _, s => s
termination_by d s => (sizeOf s, 0)
decreasing_by
  all_goals simp_wf
  all_goals apply Prod.Lex.left
  all_goals simp_arith

/-- Merge every field of `s` into `d`, left to right. -/
def mergeObjInto : JsObj → JsObj → JsObj
  | d, [] => d
  | d, (k, v) :: rest => mergeObjInto (mergeUpsert d k v) rest
termination_by d s => (sizeOf s, 0)
decreasing_by
  all_goals simp_wf
  all_goals apply Prod.Lex.left
  all_goals simp_arith

/-- Merge a single field into `d`: recursively merge with the existing
value of the key, or append the field if the key is fresh. -/
def mergeUpsert : JsObj → String → Json → JsObj
  | [], k, v => [(k, v)]
  | (k0, v0) :: restd, k, v =>
      if k0 = k then (k0, jsonMergeVal v0 v) :: restd
      else (k0, v0) :: mergeUpsert restd k v
termination_by d k v => (sizeOf v + 1, sizeOf d)
decreasing_by
  all_goals simp_wf
  · apply Prod.Lex.left
    simp_arith
  · apply Prod.Lex.right
    simp_arith

/-- Index-wise merge of two arrays; the longer tail survives. -/
def mergeArr : List Json → List Json → List Json
  | d, [] => d
  | [], s => s
  | dv :: d, sv :: s => jsonMergeVal dv sv :: mergeArr d s
termination_by d s => (sizeOf s, 0)
decreasing_by
  all_goals simp_wf
  all_goals apply Prod.Lex.left
  all_goals simp_arith

end

/-! ## IndexDetail (`AliasSelect/index.tsx`, second component) -/

/-- Modelled from the spec: `transformObjectToArray` from `IndexMapping`
(the file is not under src/) converts the `mappings.properties` map into
the array representation the form edits, one entry per field name. -/
def transformObjectToArray (j : Json) : Json :=
  match j with
  | Json.obj kvs =>
      Json.arr (kvs.map (fun kv => Json.obj [("fieldName", Json.str kv.1), ("fieldValue", kv.2)]))
  | _ => Json.arr []

/-- Modelled from the spec: `transformArrayToObject` from `IndexMapping`
(the file is not under src/) converts the array representation back into
the `mappings.properties` map keyed by field name. -/
def transformArrayToObject (j : Json) : Json :=
  match j with
  | Json.arr items =>
      Json.obj (items.foldl (fun acc it =>
        match it with
        | Json.obj [("fieldName", Json.str k), ("fieldValue", v)] => jsSet acc k v
        | _ => acc) [])
  | _ => Json.obj []

/-- The live state of the `IndexDetail` component: the controlled form
value together with the `hasEdit` ref and the two `useState` flags. -/
structure DetailState where
  value : JsObj
  hasEdit : Bool
  isMatchingTemplate : Bool
  templateSimulateLoading : Bool

/-- `onValueChange` (IndexDetail lines 149-159) for a single-key path:
`set(finalValue, name, val); onChange(\x7b...finalValue\x7d)` and the
`hasEdit` ref is raised for every name other than `"index"`. -/
def onValueChange (st : DetailState) (name : String) (val : Json) : DetailState :=
  { st with
    value := jsSet st.value name val
    hasEdit := if name = "index" then st.hasEdit else true }

/-- `finalValue.mappings?.properties` as an optional JSON value. -/
def mappingsPropertiesOf (v : JsObj) : Option Json :=
  (jsLookup v "mappings").bind (fun m => jsGetField m "properties")

/-- The draft's mappings properties in the map representation:
`transformArrayToObject(finalValue.mappings?.properties || [])`
(IndexDetail line 208). -/
def draftMappingsProperties (v : JsObj) : Json :=
  transformArrayToObject (jsOrDefault (mappingsPropertiesOf v) (Json.arr []))

/-- `formatValue` (IndexDetail lines 204-210):
`\x7b index: "", ...finalValue, mappings: \x7b properties:
transformArrayToObject(finalValue.mappings?.properties || []) \x7d \x7d`. -/
def formatValueOf (finalValue : JsObj) : JsObj :=
  jsSet (jsSpread [("index", Json.str "")] finalValue) "mappings"
    (Json.obj [("properties", draftMappingsProperties finalValue)])

/-- The `onCancel` merge (IndexDetail lines 211-215):
`mergedValue = \x7b index: finalValue.index || "" \x7d;
merge(mergedValue, result.response, formatValue)`. -/
def cancelMergedValue (finalValue response : JsObj) : JsObj :=
  mergeObjInto
    (mergeObjInto [("index", jsOrDefault (jsLookup finalValue "index") (Json.str ""))] response)
    (formatValueOf finalValue)

/-- The final shaping before `onChange` (IndexDetail lines 222-228):
`\x7b ...data, mappings: \x7b properties:
transformObjectToArray(data?.mappings?.properties || \x7b\x7d) \x7d \x7d`. -/
def applySimulationData (data : JsObj) : JsObj :=
  jsSet data "mappings"
    (Json.obj [("properties",
      transformObjectToArray (jsOrDefault (mappingsPropertiesOf data) (Json.obj [])))])

/-- The result of `onSimulateIndexTemplate`. -/
structure SimResp where
  ok : Bool
  response : JsObj

/-- The user's answer to the `simulate-confirm` modal: `Overwrite` is the
confirm button, `Merge your changes with template` the cancel button. -/
inductive ModalChoice where
  | overwrite : ModalChoice
  | mergeChanges : ModalChoice

/-- The part of `onIndexInputBlur` (IndexDetail lines 188-234) that runs
once the simulate call has returned and the component is still mounted:
clear the loading flag; on a failed response only lower the
template-matching flag; on a success ask the modal when `hasEdit` is set,
then push the (possibly merged) response through `onChange` with the
mappings properties converted back to the array form, reset `hasEdit` and
raise the template-matching flag.  The returned boolean records whether
the confirmation modal was shown. -/
def processSimulateResult (st : DetailState) (result : SimResp) (choice : ModalChoice) :
    DetailState × Bool :=
  let st1 := { st with templateSimulateLoading := false }
  if result.ok then
    let data :=
      if st1.hasEdit then
        match choice with
        | ModalChoice.overwrite => result.response
        | ModalChoice.mergeChanges => cancelMergedValue st1.value result.response
      else result.response
    ({ st1 with
        value := applySimulationData data
        hasEdit := false
        isMatchingTemplate := true }, st1.hasEdit)
  else
    ({ st1 with isMatchingTemplate := false }, false)

/-! ## `JSON.stringify(x, null, 2)` and `JSON.parse` -/

/-- `n` spaces of indentation. -/
def nSpaces (n : Nat) : String := String.mk (List.replicate n ' ')

/-- Escape a string for JSON output (quote, backslash and the common
control characters). -/
def escapeJsonString (s : String) : String :=
  String.mk (s.data.foldr (fun c acc =>
    if c = '"' then '\\' :: '"' :: acc
    else if c = '\\' then '\\' :: '\\' :: acc
    else if c = '\n' then '\\' :: 'n' :: acc
    else if c = '\t' then '\\' :: 't' :: acc
    else if c = '\r' then '\\' :: 'r' :: acc
    else c :: acc) [])

mutual

/-- `JSON.stringify(·, null, 2)` at a given current indentation level. -/
def stringifyJson (ind : Nat) : Json → String
  | Json.null => "null"
  | Json.bool b => if b then "true" else "false"
  | Json.num n => toString n
  | Json.str s => "\"" ++ escapeJsonString s ++ "\""
  | Json.arr [] => "[]"
  | Json.arr (x :: xs) =>
      "[\n" ++ stringifyItems (ind + 2) (x :: xs) ++ "\n" ++ nSpaces ind ++ "]"
  | Json.obj [] => "\x7b\x7d"
  | Json.obj (kv :: kvs) =>
      "\x7b\n" ++ stringifyFields (ind + 2) (kv :: kvs) ++ "\n" ++ nSpaces ind ++ "\x7d"
termination_by j => sizeOf j

/-- Array items, one per line, comma separated. -/
def stringifyItems (ind : Nat) : List Json → String
  | [] => ""
  | [x] => nSpaces ind ++ stringifyJson ind x
  | x :: y :: rest =>
      nSpaces ind ++ stringifyJson ind x ++ ",\n" ++ stringifyItems ind (y :: rest)
termination_by l => sizeOf l

/-- Object fields, one per line, comma separated. -/
def stringifyFields (ind : Nat) : List (String × Json) → String
  | [] => ""
  | [kv] => nSpaces ind ++ "\"" ++ escapeJsonString kv.1 ++ "\": " ++ stringifyJson ind kv.2
  | kv :: kv2 :: rest =>
      nSpaces ind ++ "\"" ++ escapeJsonString kv.1 ++ "\": " ++ stringifyJson ind kv.2 ++
        ",\n" ++ stringifyFields ind (kv2 :: rest)
termination_by l => sizeOf l
decreasing_by
  all_goals simp_wf
  all_goals try cases kv
  all_goals simp_arith

end

/-- JSON whitespace. -/
def jsonWs (c : Char) : Bool := c = ' ' || c = '\n' || c = '\t' || c = '\r'

/-- Drop leading whitespace. -/
def skipWs (cs : List Char) : List Char := cs.dropWhile jsonWs

/-- Parse the remainder of a JSON string literal (the opening quote is
already consumed), returning the decoded string and the rest. -/
def parseStringChars (fuel : Nat) (cs : List Char) : Option (String × List Char) :=
  match fuel, cs with
  | 0, _ => none
  | _, [] => none
  | f + 1, c :: rest =>
    if c = '"' then some ("", rest)
    else if c = '\\' then
      match rest with
      | [] => none
      | e :: rest2 =>
        let decoded : Option Char :=
          if e = '"' then some '"'
          else if e = '\\' then some '\\'
          else if e = '/' then some '/'
          else if e = 'n' then some '\n'
          else if e = 't' then some '\t'
          else if e = 'r' then some '\r'
          else none
        match decoded with
        | some d => (parseStringChars f rest2).map (fun r => (String.mk (d :: r.1.data), r.2))
        | none => none
    else (parseStringChars f rest).map (fun r => (String.mk (c :: r.1.data), r.2))

/-- Digits to a natural number. -/
def digitsToNat (ds : List Char) : Nat :=
  ds.foldl (fun n c => n * 10 + (c.toNat - 48)) 0

/-- Parse an integer JSON number (the model restricts JSON numbers to
integers). -/
def parseNumber (cs : List Char) : Option (Int × List Char) :=
  let (neg, cs1) := match cs with
    | '-' :: rest => (true, rest)
    | _ => (false, cs)
  let ds := cs1.takeWhile Char.isDigit
  let rest := cs1.dropWhile Char.isDigit
  if ds.isEmpty then none
  else some ((if neg then -(digitsToNat ds : Int) else (digitsToNat ds : Int)), rest)

mutual

/-- Parse one JSON value after skipping whitespace. -/
def parseVal : Nat → List Char → Option (Json × List Char)
  | 0, _ => none
  | f + 1, cs =>
    match skipWs cs with
    | 'n' :: 'u' :: 'l' :: 'l' :: rest => some (Json.null, rest)
    | 't' :: 'r' :: 'u' :: 'e' :: rest => some (Json.bool true, rest)
    | 'f' :: 'a' :: 'l' :: 's' :: 'e' :: rest => some (Json.bool false, rest)
    | '"' :: rest => (parseStringChars (f + 1) rest).map (fun r => (Json.str r.1, r.2))
    | '[' :: rest =>
      (match skipWs rest with
       | ']' :: rest2 => some (Json.arr [], rest2)
       | _ => (parseArrItems f (skipWs rest)).map (fun r => (Json.arr r.1, r.2)))
    | '\x7b' :: rest =>
      (match skipWs rest with
       | '\x7d' :: rest2 => some (Json.obj [], rest2)
       | _ => (parseObjFields f (skipWs rest)).map
           (fun r => (Json.obj (jsSpread [] r.1), r.2)))
    | other => (parseNumber other).map (fun r => (Json.num r.1, r.2))

/-- Parse the comma-separated items of a non-empty array, including the
closing bracket. -/
def parseArrItems : Nat → List Char → Option (List Json × List Char)
  | 0, _ => none
  | f + 1, cs =>
    (parseVal f cs).bind (fun r =>
      match skipWs r.2 with
      | ',' :: rest2 => (parseArrItems f (skipWs rest2)).map (fun r2 => (r.1 :: r2.1, r2.2))
      | ']' :: rest2 => some ([r.1], rest2)
      | _ => none)

/-- Parse the comma-separated fields of a non-empty object, including the
closing brace. -/
def parseObjFields : Nat → List Char → Option (List (String × Json) × List Char)
  | 0, _ => none
  | f + 1, cs =>
    match skipWs cs with
    | '"' :: rest =>
      (parseStringChars (f + 1) rest).bind (fun rk =>
        match skipWs rk.2 with
        | ':' :: restv =>
          (parseVal f (skipWs restv)).bind (fun rv =>
            match skipWs rv.2 with
            | ',' :: rest2 =>
                (parseObjFields f (skipWs rest2)).map (fun r2 => ((rk.1, rv.1) :: r2.1, r2.2))
            | '\x7d' :: rest2 => some ([(rk.1, rv.1)], rest2)
            | _ => none)
        | _ => none)
    | _ => none

end

/-- `JSON.parse`: parse a whole string as one JSON value; `none` models the
thrown `SyntaxError`.  Duplicate object keys are resolved like JS, the
later binding winning in place (`jsSpread []`). -/
def parseJson (s : String) : Option Json :=
  match parseVal (s.length + 2) s.data with
  | some (j, rest) => if (skipWs rest).isEmpty then some j else none
  | none => none

/-! ## The advanced-settings diff editor (IndexDetail lines 479-489) -/

/-- The `original` text handed to `JSONDiffEditor`:
`JSON.stringify(getOrderedJson(oldValue?.settings || \x7b\x7d), null, 2)`. -/
def renderPropsOriginal (oldSettings : Option JsObj) : String :=
  stringifyJson 0 (Json.obj (getOrderedJson (oldSettings.getD [])))

/-- The `value` text handed to `JSONDiffEditor`:
`JSON.stringify(getOrderedJson(value || \x7b\x7d), null, 2)`. -/
def renderPropsValue (curSettings : Option JsObj) : String :=
  stringifyJson 0 (Json.obj (getOrderedJson (curSettings.getD [])))

/-- Modelled from the spec: the `FormGenerator` component (not under src/)
invokes the advanced-settings `onChange` with no field name, which
IndexDetail (line 469) routes to `onValueChange("settings", val)`.
The editor's own handler is `(val) => onChange(JSON.parse(val))`;
`none` models the exception a non-JSON text raises. -/
def advancedSettingsOnChange (st : DetailState) (txt : String) : Option DetailState :=
  (parseJson txt).map (fun parsed => onValueChange st "settings" parsed)

/-! ## An event machine for `onIndexInputBlur` (IndexDetail lines 177-236)

Each blur spawns one run of the handler.  A run suspends at its `await`
points: the 200ms `setTimeout`, the `onSimulateIndexTemplate` call, and
the confirmation modal.  The machine interleaves any number of runs with
the unmount cleanup that raises `destroyRef`. -/

/-- The program counter of one run of `onIndexInputBlur`, positioned at
its suspension points. -/
inductive BlurPc where
  | delayWait : BlurPc
  | inFlight : BlurPc
  | modalWait : BlurPc
  | finished : BlurPc
deriving DecidableEq

/-- The shared component state the handler touches, plus bookkeeping: how
often `onChange` ran and how many state updates happened after destroy. -/
structure SimMachine where
  destroyed : Bool
  loading : Bool
  isMatching : Bool
  hasEdit : Bool
  changeCount : Nat
  updatesAfterDestroy : Nat
  tasks : List BlurPc
deriving DecidableEq

/-- The machine starts mounted, not loading, with pending user edits. -/
def initSimMachine : SimMachine :=
  { destroyed := false, loading := false, isMatching := false, hasEdit := true,
    changeCount := 0, updatesAfterDestroy := 0, tasks := [] }

/-- Events: a blur of the index-name input, the unmount cleanup, the
200ms timeout of run `i` firing, the simulate response of run `i`
arriving (with its `ok` flag), and the modal of run `i` resolving. -/
inductive SimEvent where
  | blur : SimEvent
  | destroy : SimEvent
  | timeoutFire (i : Nat) : SimEvent
  | responseArrive (i : Nat) (ok : Bool) : SimEvent
  | modalResolve (i : Nat) : SimEvent

/-- One atomic step of the machine: run the synchronous block of the
handler that the event wakes up, exactly as the code orders its
statements and `destroyRef` checks. -/
def simStep (m : SimMachine) (e : SimEvent) : SimMachine :=
  match e with
  | SimEvent.blur => { m with tasks := m.tasks ++ [BlurPc.delayWait] }
  | SimEvent.destroy => { m with destroyed := true }
  | SimEvent.timeoutFire i =>
    match m.tasks[i]? with
    | some BlurPc.delayWait =>
      if m.destroyed then { m with tasks := m.tasks.set i BlurPc.finished }
      else { m with loading := true, tasks := m.tasks.set i BlurPc.inFlight }
    | _ => m
  | SimEvent.responseArrive i ok =>
    match m.tasks[i]? with
    | some BlurPc.inFlight =>
      if m.destroyed then { m with tasks := m.tasks.set i BlurPc.finished }
      else if ok then
        if m.hasEdit then
          { m with loading := false, tasks := m.tasks.set i BlurPc.modalWait }
        else
          { m with loading := false, isMatching := true, hasEdit := false,
                   changeCount := m.changeCount + 1,
                   tasks := m.tasks.set i BlurPc.finished }
      else
        { m with loading := false, isMatching := false,
                 tasks := m.tasks.set i BlurPc.finished }
    | _ => m
  | SimEvent.modalResolve i =>
    match m.tasks[i]? with
    | some BlurPc.modalWait =>
      let m1 := { m with isMatching := true, hasEdit := false,
                         changeCount := m.changeCount + 1,
                         tasks := m.tasks.set i BlurPc.finished }
      if m.destroyed then { m1 with updatesAfterDestroy := m1.updatesAfterDestroy + 1 }
      else m1
    | _ => m

/-- Run the machine over an event sequence. -/
def simRun (evs : List SimEvent) : SimMachine := evs.foldl simStep initSimMachine

/-- How many simulation requests are in flight. -/
def inFlightCount (m : SimMachine) : Nat :=
  m.tasks.countP (fun pc => pc == BlurPc.inFlight)

/-! ## Indices (`Indices.tsx`) -/

/-- An EUI `Query` as the component stores it; the model keeps only the
text it was parsed from. -/
structure QueryV where
  text : String
deriving DecidableEq

/-- `Query.parse`. -/
def queryParse (s : String) : QueryV := ⟨s⟩

/-- The `IndicesState` of the `Indices` container (lines 50-64), plus the
danger toasts the component pushes through
`context.notifications.toasts.addDanger`. -/
structure IndicesState where
  totalIndices : Nat
  «from» : Nat
  size : Nat
  search : String
  query : QueryV
  sortField : String
  sortDirection : String
  selectedItems : List String
  indices : List String
  loadingIndices : Bool
  showDataStreams : Bool
  isDataStreamColumnVisible : Bool
  deleteIndexModalVisible : Bool
  dangerToasts : List String
deriving DecidableEq

/-- How one call to `indexService.getIndices` can end: an `ok` response, a
non-ok response, or a thrown error (already formatted by
`getErrorMessage`). -/
inductive GetIndicesOutcome where
  | ok (indices : List String) (totalIndices : Nat) : GetIndicesOutcome
  | notOk (error : String) : GetIndicesOutcome
  | threw (error : String) : GetIndicesOutcome
deriving DecidableEq

/-- `getIndices` (Indices lines 107-135): raise the loading flag, fetch,
then either repopulate `indices`/`totalIndices` or push a danger toast,
and finally clear the loading flag and sync the data-stream column. -/
def getIndices (st : IndicesState) (o : GetIndicesOutcome) : IndicesState :=
  let st1 := { st with loadingIndices := true }
  let st2 :=
    match o with
    | GetIndicesOutcome.ok is t => { st1 with indices := is, totalIndices := t }
    | GetIndicesOutcome.notOk e => { st1 with dangerToasts := st1.dangerToasts ++ [e] }
    | GetIndicesOutcome.threw e => { st1 with dangerToasts := st1.dangerToasts ++ [e] }
  { st2 with loadingIndices := false, isDataStreamColumnVisible := st2.showDataStreams }

/-- The argument of the search-bar change callback: `ArgsWithQuery` when
`error` is absent, `ArgsWithError` when present. -/
structure SearchArgs where
  query : QueryV
  queryText : String
  error : Option String
deriving DecidableEq

/-- `onSearchChange` (Indices lines 173-179). -/
def onSearchChange (st : IndicesState) (args : SearchArgs) : IndicesState :=
  if args.error.isSome then st
  else { st with «from» := 0, search := args.queryText, query := args.query }

/-! ## CreatePolicy (`src/unnamed/part_000`, second component) -/

/-- The `CreatePolicyState` (part_000 lines 91-100). -/
structure CreatePolicyState where
  policyId : String
  policyIdError : String
  jsonString : String
  policySeqNo : Option Int
  policyPrimaryTerm : Option Int
  submitError : String
  isSubmitting : Bool
  hasSubmitted : Bool
deriving DecidableEq

/-- How a `policyService.putPolicy` call can end. -/
inductive PutPolicyOutcome where
  | ok (respId : String) : PutPolicyOutcome
  | notOk (error : String) : PutPolicyOutcome
  | threw (error : String) : PutPolicyOutcome
deriving DecidableEq

/-- The observable result of one `onSubmit` run: the state plus whether
`putPolicy` was invoked, the toasts pushed, and whether the router moved
to the policies page. -/
structure SubmitEffects where
  state : CreatePolicyState
  putPolicyCalled : Bool
  dangerToasts : List String
  successToasts : List String
  navigatedToPolicies : Bool
deriving DecidableEq

/-- `onCreate` (part_000 lines 157-170): call `putPolicy`; a success
toasts and navigates, a failure or a throw lands in `submitError`. -/
def onCreate (eff : SubmitEffects) (o : PutPolicyOutcome) : SubmitEffects :=
  let eff1 := { eff with putPolicyCalled := true }
  match o with
  | PutPolicyOutcome.ok rid =>
      { eff1 with successToasts := eff1.successToasts ++ ["Created policy: " ++ rid],
                  navigatedToPolicies := true }
  | PutPolicyOutcome.notOk e => { eff1 with state := { eff1.state with submitError := e } }
  | PutPolicyOutcome.threw e => { eff1 with state := { eff1.state with submitError := e } }

/-- `onUpdate` (part_000 lines 172-190): with a null `policySeqNo` or
`policyPrimaryTerm` it only toasts a danger and returns without calling
`putPolicy`; otherwise it behaves like `onCreate` with an update toast. -/
def onUpdate (eff : SubmitEffects) (o : PutPolicyOutcome) : SubmitEffects :=
  match eff.state.policySeqNo, eff.state.policyPrimaryTerm with
  | some _, some _ =>
    let eff1 := { eff with putPolicyCalled := true }
    (match o with
     | PutPolicyOutcome.ok rid =>
         { eff1 with successToasts := eff1.successToasts ++ ["Updated policy: " ++ rid],
                     navigatedToPolicies := true }
     | PutPolicyOutcome.notOk e => { eff1 with state := { eff1.state with submitError := e } }
     | PutPolicyOutcome.threw e => { eff1 with state := { eff1.state with submitError := e } })
  | _, _ =>
    { eff with dangerToasts :=
        eff.dangerToasts ++ ["Could not update policy without seqNo and primaryTerm"] }

/-- `onSubmit` (part_000 lines 217-235): clear `submitError`, raise
`isSubmitting` and `hasSubmitted`; an empty id only sets the `Required`
error; otherwise `JSON.parse` the policy text and dispatch to
`onUpdate`/`onCreate`, a parse failure toasting `Invalid Policy JSON`;
`isSubmitting` is lowered at the end in every case. -/
def onSubmit (isEdit : Bool) (st : CreatePolicyState) (o : PutPolicyOutcome) : SubmitEffects :=
  let st1 := { st with submitError := "", isSubmitting := true, hasSubmitted := true }
  let eff0 : SubmitEffects :=
    { state := st1, putPolicyCalled := false, dangerToasts := [], successToasts := [],
      navigatedToPolicies := false }
  let eff1 :=
    if st1.policyId = "" then
      { eff0 with state := { eff0.state with policyIdError := "Required" } }
    else
      match parseJson st1.jsonString with
      | some _ => if isEdit then onUpdate eff0 o else onCreate eff0 o
      | none => { eff0 with dangerToasts := eff0.dangerToasts ++ ["Invalid Policy JSON"] }
  { eff1 with state := { eff1.state with isSubmitting := false } }

/-- A concrete `Indices` component state used by the witnesses. -/
def sampleIndicesState : IndicesState :=
  { totalIndices := 5, «from» := 20, size := 10, search := "old", query := ⟨"old"⟩,
    sortField := "index", sortDirection := "desc", selectedItems := ["i1"],
    indices := ["i1", "i2"], loadingIndices := true, showDataStreams := true,
    isDataStreamColumnVisible := false, deleteIndexModalVisible := false,
    dangerToasts := [] }

/-- The edit-mode `CreatePolicy` state with a null seqNo/primaryTerm that
refutes C7: non-empty id, valid JSON, and still no `putPolicy` call. -/
def cpMissingSeqNoState : CreatePolicyState :=
  { policyId := "policy1", policyIdError := "", jsonString := "\x7b\x7d",
    policySeqNo := none, policyPrimaryTerm := none, submitError := "",
    isSubmitting := false, hasSubmitted := false }

/-! ## Lemmas about the JS object primitives -/

theorem jsKeys_nil : jsKeys [] = [] := rfl

theorem jsKeys_cons (k : String) (v : Json) (l : JsObj) :
    jsKeys ((k, v) :: l) = k :: jsKeys l := rfl

theorem jsLookup_jsSet (l : JsObj) (k : String) (v : Json) (k' : String) :
    jsLookup (jsSet l k v) k' = if k = k' then some v else jsLookup l k' := by
  induction l with
  | nil =>
    by_cases h : k = k' <;> simp [jsSet, jsLookup, h]
  | cons kv rest ih =>
    obtain ⟨k0, v0⟩ := kv
    by_cases hk0 : k0 = k
    · subst hk0
      by_cases h : k0 = k' <;> simp [jsSet, jsLookup, h]
    · by_cases h1 : k0 = k' <;> by_cases h2 : k = k'
      · exact absurd (h1.trans h2.symm) hk0
      · subst h1
        simp [jsSet, hk0, jsLookup, h2]
      · subst h2
        simp [jsSet, hk0, jsLookup, ih]
      · simp [jsSet, hk0, jsLookup, h1, h2, ih]

theorem jsKeys_jsSet (l : JsObj) (k : String) (v : Json) :
    jsKeys (jsSet l k v) = if k ∈ jsKeys l then jsKeys l else jsKeys l ++ [k] := by
  induction l with
  | nil => simp [jsSet, jsKeys]
  | cons kv rest ih =>
    obtain ⟨k0, v0⟩ := kv
    by_cases hk0 : k0 = k
    · subst hk0
      simp [jsSet, jsKeys_cons]
    · have hne : ¬ k = k0 := fun h => hk0 h.symm
      have hset : jsSet ((k0, v0) :: rest) k v = (k0, v0) :: jsSet rest k v := by
        simp [jsSet, hk0]
      rw [hset, jsKeys_cons, jsKeys_cons, ih]
      by_cases hk : k ∈ jsKeys rest
      · simp [hk, hne]
      · simp [hk, hne]

theorem jsKeys_jsSet_nodup (l : JsObj) (k : String) (v : Json)
    (h : (jsKeys l).Nodup) : (jsKeys (jsSet l k v)).Nodup := by
  rw [jsKeys_jsSet]
  by_cases hk : k ∈ jsKeys l
  · simpa [hk] using h
  · simp only [hk, if_false]
    simpa [List.nodup_append] using ⟨h, hk⟩

theorem jsSet_of_not_mem (l : JsObj) (k : String) (v : Json)
    (h : k ∉ jsKeys l) : jsSet l k v = l ++ [(k, v)] := by
  induction l with
  | nil => simp [jsSet]
  | cons kv rest ih =>
    obtain ⟨k0, v0⟩ := kv
    rw [jsKeys_cons] at h
    simp only [List.mem_cons, not_or] at h
    have hne : ¬ k0 = k := fun hh => h.1 hh.symm
    simp [jsSet, hne, ih h.2]

theorem jsLookup_eq_none_iff (l : JsObj) (k : String) :
    jsLookup l k = none ↔ k ∉ jsKeys l := by
  induction l with
  | nil => simp [jsLookup, jsKeys]
  | cons kv rest ih =>
    obtain ⟨k0, v0⟩ := kv
    rw [jsKeys_cons]
    by_cases h : k0 = k
    · subst h
      simp [jsLookup]
    · have hne : ¬ k = k0 := fun hh => h hh.symm
      simp [jsLookup, h, ih, List.mem_cons, hne]

theorem jsLookup_eq_some_iff (l : JsObj) (k : String) (v : Json)
    (h : (jsKeys l).Nodup) : jsLookup l k = some v ↔ (k, v) ∈ l := by
  induction l with
  | nil => simp [jsLookup]
  | cons kv rest ih =>
    obtain ⟨k0, v0⟩ := kv
    rw [jsKeys_cons] at h
    obtain ⟨hnot, hrest⟩ := List.nodup_cons.mp h
    by_cases hk : k0 = k
    · subst hk
      simp only [jsLookup, if_pos rfl, List.mem_cons]
      constructor
      · intro hv
        left
        cases hv
        rfl
      · rintro (hv | hv)
        · cases hv
          rfl
        · exact absurd (List.mem_map_of_mem Prod.fst hv) hnot
    · have hne : ¬ (k, v) = (k0, v0) := by
        intro hh
        cases hh
        exact hk rfl
      simp only [jsLookup, if_neg hk, List.mem_cons]
      rw [ih hrest]
      constructor
      · intro hv
        right
        exact hv
      · rintro (hv | hv)
        · exact absurd hv hne
        · exact hv

theorem jsLookup_eq_of_perm (l l' : JsObj) (hp : l.Perm l') (h : (jsKeys l).Nodup)
    (k : String) : jsLookup l k = jsLookup l' k := by
  have hkeys : (jsKeys l).Perm (jsKeys l') := hp.map Prod.fst
  have h' : (jsKeys l').Nodup := hkeys.nodup_iff.mp h
  cases hv : jsLookup l k with
  | some v =>
    have hm := (jsLookup_eq_some_iff l k v h).mp hv
    exact ((jsLookup_eq_some_iff l' k v h').mpr (hp.mem_iff.mp hm)).symm
  | none =>
    have hm := (jsLookup_eq_none_iff l k).mp hv
    have hm' : k ∉ jsKeys l' := fun hmm => hm (hkeys.mem_iff.mpr hmm)
    exact ((jsLookup_eq_none_iff l' k).mpr hm').symm

theorem jsSpread_cons (d : JsObj) (k : String) (v : Json) (rest : JsObj) :
    jsSpread d ((k, v) :: rest) = jsSpread (jsSet d k v) rest := rfl

theorem jsLookup_jsSpread (s : JsObj) (d : JsObj) (k : String)
    (hs : (jsKeys s).Nodup) :
    jsLookup (jsSpread d s) k =
      match jsLookup s k with
      | some v => some v
      | none => jsLookup d k := by
  induction s generalizing d with
  | nil => simp [jsSpread, jsLookup]
  | cons kv rest ih =>
    obtain ⟨k0, v0⟩ := kv
    rw [jsKeys_cons] at hs
    obtain ⟨hnot, hrest⟩ := List.nodup_cons.mp hs
    rw [jsSpread_cons, ih _ hrest]
    by_cases h : k0 = k
    · subst h
      have hnone : jsLookup rest k0 = none := (jsLookup_eq_none_iff rest k0).mpr hnot
      simp [jsLookup, hnone, jsLookup_jsSet]
    · simp [jsLookup, h, jsLookup_jsSet, fun hh : k0 = k => h hh]

theorem jsKeys_jsSpread_nodup (s : JsObj) (d : JsObj)
    (hd : (jsKeys d).Nodup) : (jsKeys (jsSpread d s)).Nodup := by
  induction s generalizing d with
  | nil => exact hd
  | cons kv rest ih =>
    obtain ⟨k0, v0⟩ := kv
    rw [jsSpread_cons]
    exact ih _ (jsKeys_jsSet_nodup _ _ _ hd)

theorem jsKeys_append (a b : JsObj) : jsKeys (a ++ b) = jsKeys a ++ jsKeys b := by
  simp [jsKeys]

theorem jsSpread_of_disjoint (s : JsObj) (d : JsObj)
    (hdisj : ∀ k ∈ jsKeys s, k ∉ jsKeys d) (hs : (jsKeys s).Nodup) :
    jsSpread d s = d ++ s := by
  induction s generalizing d with
  | nil => simp [jsSpread]
  | cons kv rest ih =>
    obtain ⟨k0, v0⟩ := kv
    rw [jsKeys_cons] at hdisj hs
    obtain ⟨hnot, hrest⟩ := List.nodup_cons.mp hs
    rw [jsSpread_cons, jsSet_of_not_mem _ _ _ (hdisj k0 (List.mem_cons_self _ _))]
    have hdisj' : ∀ k ∈ jsKeys rest, k ∉ jsKeys (d ++ [(k0, v0)]) := by
      intro k hk
      rw [jsKeys_append]
      simp only [List.mem_append, not_or]
      refine ⟨hdisj k (List.mem_cons_of_mem _ hk), ?_⟩
      rw [jsKeys_cons, jsKeys_nil]
      simp only [List.mem_singleton]
      intro hh
      subst hh
      exact hnot hk
    rw [ih _ hdisj' hrest]
    simp

theorem jsSpread_nil_eq (s : JsObj) (hs : (jsKeys s).Nodup) : jsSpread [] s = s := by
  have := jsSpread_of_disjoint s [] (fun k _ => by simp [jsKeys]) hs
  simpa using this

/-! ## Lemmas about `jsDedup` and key folds -/

theorem mem_jsDedup_aux (l : List String) (acc : List String) (x : String) :
    (x ∈ l.foldl (fun a y => if y ∈ a then a else a ++ [y]) acc) ↔ x ∈ acc ∨ x ∈ l := by
  induction l generalizing acc with
  | nil => simp
  | cons y rest ih =>
    show (x ∈ List.foldl _ (if y ∈ acc then acc else acc ++ [y]) rest) ↔ _
    by_cases hy : y ∈ acc
    · rw [if_pos hy, ih]
      constructor
      · rintro (h | h)
        · exact Or.inl h
        · exact Or.inr (List.mem_cons_of_mem _ h)
      · rintro (h | h)
        · exact Or.inl h
        · rcases List.mem_cons.mp h with h | h
          · exact Or.inl (h ▸ hy)
          · exact Or.inr h
    · rw [if_neg hy, ih]
      simp [List.mem_append, or_assoc]

theorem mem_jsDedup (l : List String) (x : String) : x ∈ jsDedup l ↔ x ∈ l := by
  rw [jsDedup, mem_jsDedup_aux]
  simp

theorem nodup_jsDedup_aux (l : List String) (acc : List String) (h : acc.Nodup) :
    (l.foldl (fun a y => if y ∈ a then a else a ++ [y]) acc).Nodup := by
  induction l generalizing acc with
  | nil => exact h
  | cons y rest ih =>
    show (List.foldl _ (if y ∈ acc then acc else acc ++ [y]) rest).Nodup
    by_cases hy : y ∈ acc
    · rw [if_pos hy]
      exact ih _ h
    · rw [if_neg hy]
      exact ih _ (by simp [List.nodup_append, h, hy])

theorem nodup_jsDedup (l : List String) : (jsDedup l).Nodup :=
  nodup_jsDedup_aux l [] List.nodup_nil

theorem jsDedup_of_nodup_aux (l : List String) (acc : List String) (h : l.Nodup)
    (hd : ∀ x ∈ l, x ∉ acc) :
    l.foldl (fun a y => if y ∈ a then a else a ++ [y]) acc = acc ++ l := by
  induction l generalizing acc with
  | nil => simp
  | cons y rest ih =>
    obtain ⟨hy, hrest⟩ := List.nodup_cons.mp h
    show List.foldl _ (if y ∈ acc then acc else acc ++ [y]) rest = _
    rw [if_neg (hd y (List.mem_cons_self _ _))]
    rw [ih _ hrest (fun x hx => by
      simp only [List.mem_append, List.mem_singleton, not_or]
      exact ⟨hd x (List.mem_cons_of_mem _ hx), fun hh => hy (hh ▸ hx)⟩)]
    simp

theorem jsDedup_of_nodup (l : List String) (h : l.Nodup) : jsDedup l = l := by
  have := jsDedup_of_nodup_aux l [] h (fun x _ => List.not_mem_nil x)
  simpa [jsDedup] using this

theorem mem_jsSet (l : JsObj) (k : String) (v : Json) (a : String) (b : Json)
    (h : (a, b) ∈ jsSet l k v) : (a, b) ∈ l ∨ (a, b) = (k, v) := by
  induction l with
  | nil =>
    right
    simpa [jsSet] using h
  | cons kv0 rest ih =>
    obtain ⟨k0, v0⟩ := kv0
    by_cases h0 : k0 = k
    · subst h0
      rw [show jsSet ((k0, v0) :: rest) k0 v = (k0, v) :: rest by simp [jsSet]] at h
      rcases List.mem_cons.mp h with h | h
      · exact Or.inr h
      · exact Or.inl (List.mem_cons_of_mem _ h)
    · rw [show jsSet ((k0, v0) :: rest) k v = (k0, v0) :: jsSet rest k v by
        simp [jsSet, h0]] at h
      rcases List.mem_cons.mp h with h | h
      · exact Or.inl (h ▸ List.mem_cons_self _ _)
      · rcases ih h with h' | h'
        · exact Or.inl (List.mem_cons_of_mem _ h')
        · exact Or.inr h'

/-! ## Lemmas about `transformObjToArray` / `transformArrayToObj` -/

theorem jsKeys_transformArrayToObj_aux (arr : List LabelItem) (acc : JsObj) :
    jsKeys (arr.foldl (fun total current => jsSet total current.label (Json.obj [])) acc) =
      (arr.map LabelItem.label).foldl (fun a x => if x ∈ a then a else a ++ [x]) (jsKeys acc) := by
  induction arr generalizing acc with
  | nil => rfl
  | cons c rest ih =>
    show jsKeys (List.foldl _ (jsSet acc c.label (Json.obj [])) rest) = _
    rw [ih, List.map_cons]
    show _ = List.foldl _ (if c.label ∈ jsKeys acc then jsKeys acc else jsKeys acc ++ [c.label])
      (rest.map LabelItem.label)
    rw [jsKeys_jsSet]

theorem jsKeys_transformArrayToObj (arr : List LabelItem) :
    jsKeys (transformArrayToObj arr) = jsDedup (arr.map LabelItem.label) := by
  rw [transformArrayToObj, jsKeys_transformArrayToObj_aux, jsDedup, jsKeys_nil]

theorem values_transformArrayToObj_aux (arr : List LabelItem) (acc : JsObj)
    (h : ∀ kv ∈ acc, kv.2 = Json.obj []) :
    ∀ kv ∈ arr.foldl (fun total current => jsSet total current.label (Json.obj [])) acc,
      kv.2 = Json.obj [] := by
  induction arr generalizing acc with
  | nil => exact h
  | cons c rest ih =>
    show ∀ kv ∈ List.foldl _ (jsSet acc c.label (Json.obj [])) rest, _
    refine ih _ (fun kv hkv => ?_)
    obtain ⟨a, b⟩ := kv
    rcases mem_jsSet _ _ _ _ _ hkv with hm | hm
    · exact h _ hm
    · cases hm
      rfl

theorem values_transformArrayToObj (arr : List LabelItem) :
    ∀ kv ∈ transformArrayToObj arr, kv.2 = Json.obj [] :=
  values_transformArrayToObj_aux arr [] (fun _ h => absurd h (List.not_mem_nil _))

theorem foldl_jsSet_labels (ks : List String) (acc : JsObj)
    (hdisj : ∀ k ∈ ks, k ∉ jsKeys acc) (hk : ks.Nodup) :
    ks.foldl (fun t k => jsSet t k (Json.obj [])) acc =
      acc ++ ks.map (fun k => (k, Json.obj [])) := by
  induction ks generalizing acc with
  | nil => simp
  | cons k0 rest ih =>
    obtain ⟨hk0, hrest⟩ := List.nodup_cons.mp hk
    show List.foldl _ (jsSet acc k0 (Json.obj [])) rest = _
    rw [jsSet_of_not_mem _ _ _ (hdisj k0 (List.mem_cons_self _ _))]
    rw [ih _ (fun k hkm => by
      rw [jsKeys_append, jsKeys_cons, jsKeys_nil]
      simp only [List.mem_append, List.mem_singleton, not_or]
      exact ⟨hdisj k (List.mem_cons_of_mem _ hkm), fun hh => hk0 (hh ▸ hkm)⟩) hrest]
    simp

theorem map_keys_empty_eq (o : JsObj) (hv : ∀ kv ∈ o, kv.2 = Json.obj []) :
    (jsKeys o).map (fun k => (k, Json.obj [])) = o := by
  induction o with
  | nil => rfl
  | cons kv rest ih =>
    obtain ⟨k0, v0⟩ := kv
    have h0 : v0 = Json.obj [] := hv (k0, v0) (List.mem_cons_self _ _)
    rw [jsKeys_cons, List.map_cons, ih (fun kv h => hv kv (List.mem_cons_of_mem _ h)), h0]

theorem transformArrayToObj_transformObjToArray (o : JsObj)
    (hnod : (jsKeys o).Nodup) (hv : ∀ kv ∈ o, kv.2 = Json.obj []) :
    transformArrayToObj (transformObjToArray o) = o := by
  rw [transformObjToArray, transformArrayToObj, List.foldl_map]
  have h1 : ((jsKeys o).foldl
      (fun t k => jsSet t k (Json.obj [])) ([] : JsObj)) =
      [] ++ (jsKeys o).map (fun k => (k, Json.obj [])) :=
    foldl_jsSet_labels (jsKeys o) [] (fun k _ => by simp [jsKeys]) hnod
  show (jsKeys o).foldl (fun t k => jsSet t k (Json.obj [])) ([] : JsObj) = o
  rw [h1]
  simpa using map_keys_empty_eq o hv

/-! ## Lemmas about `getOrderedJson` -/

theorem getOrderedJson_eq_sort (l : JsObj) (h : (jsKeys l).Nodup) :
    getOrderedJson l = List.insertionSort entryLe l := by
  have hperm : (List.insertionSort entryLe l).Perm l := List.perm_insertionSort entryLe l
  have hk : (jsKeys (List.insertionSort entryLe l)).Nodup :=
    ((hperm.map Prod.fst).nodup_iff).mpr h
  exact jsSpread_nil_eq _ hk

theorem getOrderedJson_perm (l : JsObj) (h : (jsKeys l).Nodup) :
    (getOrderedJson l).Perm l := by
  rw [getOrderedJson_eq_sort l h]
  exact List.perm_insertionSort entryLe l

theorem jsLookup_getOrderedJson (l : JsObj) (h : (jsKeys l).Nodup) (k : String) :
    jsLookup (getOrderedJson l) k = jsLookup l k := by
  have hperm := getOrderedJson_perm l h
  have hk : (jsKeys (getOrderedJson l)).Nodup := ((hperm.map Prod.fst).nodup_iff).mpr h
  exact jsLookup_eq_of_perm _ _ hperm hk k

theorem getOrderedJson_keys_sorted (l : JsObj) (h : (jsKeys l).Nodup) :
    List.Sorted (· ≤ ·) (jsKeys (getOrderedJson l)) := by
  rw [getOrderedJson_eq_sort l h]
  have hs : List.Sorted entryLe (List.insertionSort entryLe l) :=
    List.sorted_insertionSort entryLe l
  exact List.Pairwise.map Prod.fst (fun a b hab => hab) hs

theorem getOrderedJson_idem (l : JsObj) (h : (jsKeys l).Nodup) :
    getOrderedJson (getOrderedJson l) = getOrderedJson l := by
  rw [getOrderedJson_eq_sort l h]
  have hperm : (List.insertionSort entryLe l).Perm l := List.perm_insertionSort entryLe l
  have hk : (jsKeys (List.insertionSort entryLe l)).Nodup :=
    ((hperm.map Prod.fst).nodup_iff).mpr h
  have hsorted : List.Sorted entryLe (List.insertionSort entryLe l) :=
    List.sorted_insertionSort entryLe l
  rw [getOrderedJson, hsorted.insertionSort_eq]
  exact jsSpread_nil_eq _ hk

/-! ## Lemmas about lodash `merge` -/

theorem jsLookup_mergeUpsert (d : JsObj) (k : String) (v : Json) (k' : String) :
    jsLookup (mergeUpsert d k v) k' =
      if k = k' then
        match jsLookup d k with
        | some o => some (jsonMergeVal o v)
        | none => some v
      else jsLookup d k' := by
  induction d with
  | nil =>
    by_cases h : k = k' <;> simp [mergeUpsert, jsLookup, h]
  | cons kv rest ih =>
    obtain ⟨k0, v0⟩ := kv
    by_cases h0 : k0 = k
    · subst h0
      by_cases h : k0 = k' <;> simp [mergeUpsert, jsLookup, h]
    · by_cases h1 : k0 = k' <;> by_cases h2 : k = k'
      · exact absurd (h1.trans h2.symm) h0
      · subst h1
        simp [mergeUpsert, h0, jsLookup, h2]
      · subst h2
        simp [mergeUpsert, h0, jsLookup, ih]
      · simp [mergeUpsert, h0, jsLookup, h1, h2, ih]

theorem jsLookup_mergeObjInto (s : JsObj) (d : JsObj) (k : String)
    (hs : (jsKeys s).Nodup) :
    jsLookup (mergeObjInto d s) k =
      match jsLookup s k with
      | some sv =>
          some (match jsLookup d k with
                | some dv => jsonMergeVal dv sv
                | none => sv)
      | none => jsLookup d k := by
  induction s generalizing d with
  | nil => simp [mergeObjInto, jsLookup]
  | cons kv rest ih =>
    obtain ⟨k0, v0⟩ := kv
    rw [jsKeys_cons] at hs
    obtain ⟨hnot, hrest⟩ := List.nodup_cons.mp hs
    simp only [mergeObjInto]
    rw [ih _ hrest]
    by_cases h : k0 = k
    · subst h
      have hnone : jsLookup rest k0 = none := (jsLookup_eq_none_iff rest k0).mpr hnot
      rw [hnone, jsLookup_mergeUpsert]
      cases hd : jsLookup d k0 <;> simp [jsLookup, hd]
    · rw [jsLookup_mergeUpsert, if_neg h]
      simp [jsLookup, h]

theorem mergeUpsert_of_not_mem (d : JsObj) (k : String) (v : Json)
    (h : k ∉ jsKeys d) : mergeUpsert d k v = d ++ [(k, v)] := by
  induction d with
  | nil => simp [mergeUpsert]
  | cons kv rest ih =>
    obtain ⟨k0, v0⟩ := kv
    rw [jsKeys_cons] at h
    simp only [List.mem_cons, not_or] at h
    have hne : ¬ k0 = k := fun hh => h.1 hh.symm
    simp [mergeUpsert, hne, ih h.2]

theorem mergeObjInto_of_disjoint (s : JsObj) (d : JsObj)
    (hdisj : ∀ k ∈ jsKeys s, k ∉ jsKeys d) (hs : (jsKeys s).Nodup) :
    mergeObjInto d s = d ++ s := by
  induction s generalizing d with
  | nil => simp [mergeObjInto]
  | cons kv rest ih =>
    obtain ⟨k0, v0⟩ := kv
    rw [jsKeys_cons] at hdisj hs
    obtain ⟨hnot, hrest⟩ := List.nodup_cons.mp hs
    simp only [mergeObjInto]
    rw [mergeUpsert_of_not_mem _ _ _ (hdisj k0 (List.mem_cons_self _ _))]
    rw [ih _ (fun k hk => by
      rw [jsKeys_append, jsKeys_cons, jsKeys_nil]
      simp only [List.mem_append, List.mem_singleton, not_or]
      exact ⟨hdisj k (List.mem_cons_of_mem _ hk), fun hh => hnot (hh ▸ hk)⟩) hrest]
    simp

theorem jsonMergeVal_empty_obj (s : JsObj) (hs : (jsKeys s).Nodup) :
    jsonMergeVal (Json.obj []) (Json.obj s) = Json.obj s := by
  simp only [jsonMergeVal]
  rw [mergeObjInto_of_disjoint s [] (fun k _ => by simp [jsKeys]) hs]
  simp

theorem jsonMergeVal_str (dv : Json) (s : String) :
    jsonMergeVal dv (Json.str s) = Json.str s := by
  cases dv <;> simp [jsonMergeVal]

/-! ## Claim theorems -/

/-- C9: `getOrderedJson` returns an object binding exactly the same keys to
the same values as its argument (same lookups; the entries are a
permutation), with the keys enumerated in ascending order, and applying it
twice gives the same result as applying it once. -/
theorem getOrderedJson_spec (l : JsObj) (h : (jsKeys l).Nodup) :
    (∀ k, jsLookup (getOrderedJson l) k = jsLookup l k) ∧
    (getOrderedJson l).Perm l ∧
    List.Sorted (· ≤ ·) (jsKeys (getOrderedJson l)) ∧
    getOrderedJson (getOrderedJson l) = getOrderedJson l :=
  ⟨fun k => jsLookup_getOrderedJson l h k, getOrderedJson_perm l h,
   getOrderedJson_keys_sorted l h, getOrderedJson_idem l h⟩

/-- Witness for C9 at a concrete two-field settings object. -/
theorem getOrderedJson_spec_witness :
    (jsKeys [("b", Json.num 2), ("a", Json.num 1)]).Nodup ∧
    jsLookup (getOrderedJson [("b", Json.num 2), ("a", Json.num 1)]) "a" =
      jsLookup [("b", Json.num 2), ("a", Json.num 1)] "a" ∧
    getOrderedJson (getOrderedJson [("b", Json.num 2), ("a", Json.num 1)]) =
      getOrderedJson [("b", Json.num 2), ("a", Json.num 1)] := by
  have h := getOrderedJson_spec [("b", Json.num 2), ("a", Json.num 1)] (by decide)
  exact ⟨by decide, h.1 "a", h.2.2.2⟩

/-- C4: converting an alias object to the option-array form and back yields
an object with exactly the same keys, every key bound to the empty object;
on alias values (all values the empty object) the round trip is the
identity; and converting a label array to the object form and back yields
exactly the array's distinct labels. -/
theorem aliasTransform_roundTrip (o : JsObj) (arr : List LabelItem)
    (hnod : (jsKeys o).Nodup) (hv : ∀ kv ∈ o, kv.2 = Json.obj []) :
    jsKeys (transformArrayToObj (transformObjToArray o)) = jsKeys o ∧
    (∀ kv ∈ transformArrayToObj (transformObjToArray o), kv.2 = Json.obj []) ∧
    transformArrayToObj (transformObjToArray o) = o ∧
    (transformObjToArray (transformArrayToObj arr)).map LabelItem.label =
      jsDedup (arr.map LabelItem.label) := by
  have hid := transformArrayToObj_transformObjToArray o hnod hv
  refine ⟨by rw [hid], by rw [hid]; exact hv, hid, ?_⟩
  rw [transformObjToArray, List.map_map]
  have hcomp : (LabelItem.label ∘ fun label => (⟨label⟩ : LabelItem)) = id := rfl
  rw [hcomp, List.map_id]
  exact jsKeys_transformArrayToObj arr

/-- Witness for C4 at a concrete alias object and a label array with a
duplicate. -/
theorem aliasTransform_roundTrip_witness :
    transformArrayToObj (transformObjToArray
        [("a1", Json.obj []), ("a2", Json.obj [])]) =
      [("a1", Json.obj []), ("a2", Json.obj [])] ∧
    (transformObjToArray (transformArrayToObj
        [(⟨"x"⟩ : LabelItem), ⟨"y"⟩, ⟨"x"⟩])).map LabelItem.label =
      jsDedup (([(⟨"x"⟩ : LabelItem), ⟨"y"⟩, ⟨"x"⟩]).map LabelItem.label) := by
  have h := aliasTransform_roundTrip [("a1", Json.obj []), ("a2", Json.obj [])]
    [(⟨"x"⟩ : LabelItem), ⟨"y"⟩, ⟨"x"⟩] (by decide) (by simp)
  exact ⟨h.2.2.1, h.2.2.2⟩

/-- C8: a successful `refreshOptions` response carries each backend alias
name at most once and excludes exactly the system-matching names; a failed
response is passed through unchanged. -/
theorem refreshOptions_spec (isSystemAlias : String → Bool) (items : List AliasRow)
    (e : String) :
    (∃ opts, refreshOptions isSystemAlias (SResp.ok items) = SResp.ok opts ∧
      (opts.map LabelItem.label).Nodup ∧
      (∀ a, a ∈ opts.map LabelItem.label ↔
        a ∈ items.map AliasRow.«alias» ∧ isSystemAlias a = false)) ∧
    refreshOptions isSystemAlias (SResp.fail e) = SResp.fail e := by
  refine ⟨⟨_, rfl, ?_, ?_⟩, rfl⟩
  · rw [List.map_map]
    have hcomp : (LabelItem.label ∘ fun item => (⟨item⟩ : LabelItem)) = id := rfl
    rw [hcomp, List.map_id]
    exact nodup_jsDedup _
  · intro a
    rw [List.map_map]
    have hcomp : (LabelItem.label ∘ fun item => (⟨item⟩ : LabelItem)) = id := rfl
    rw [hcomp, List.map_id, mem_jsDedup, List.mem_filter]
    simp

/-- Witness for C8 at a concrete alias listing with a duplicate and a
system alias, and a concrete failure. -/
theorem refreshOptions_spec_witness :
    refreshOptions (fun a => a == ".system") (SResp.fail "boom") = SResp.fail "boom" ∧
    ((refreshOptions (fun a => a == ".system")
        (SResp.ok [⟨"a"⟩, ⟨".system"⟩, ⟨"a"⟩, ⟨"b"⟩])) =
      SResp.ok [(⟨"a"⟩ : LabelItem), ⟨"b"⟩]) := by
  have h := refreshOptions_spec (fun a => a == ".system")
    [⟨"a"⟩, ⟨".system"⟩, ⟨"a"⟩, ⟨"b"⟩] "boom"
  exact ⟨h.2, by rfl⟩


/-- C6: a successful `getIndices` call repopulates `indices` and
`totalIndices` without toasting; a non-ok or thrown call leaves them
unchanged and pushes one danger toast; and the loading flag is false when
the call completes. -/
theorem getIndices_spec (st : IndicesState) (o : GetIndicesOutcome) :
    (∀ is t, o = GetIndicesOutcome.ok is t →
      (getIndices st o).indices = is ∧ (getIndices st o).totalIndices = t ∧
      (getIndices st o).dangerToasts = st.dangerToasts) ∧
    (∀ e, o = GetIndicesOutcome.notOk e ∨ o = GetIndicesOutcome.threw e →
      (getIndices st o).indices = st.indices ∧
      (getIndices st o).totalIndices = st.totalIndices ∧
      (getIndices st o).dangerToasts = st.dangerToasts ++ [e]) ∧
    (getIndices st o).loadingIndices = false := by
  refine ⟨?_, ?_, ?_⟩
  · rintro is t rfl
    simp [getIndices]
  · rintro e (rfl | rfl) <;> simp [getIndices]
  · cases o <;> simp [getIndices]

/-- Witness for C6 at a concrete state, for the ok and the non-ok path. -/
theorem getIndices_spec_witness :
    ((getIndices sampleIndicesState (GetIndicesOutcome.ok ["x"] 1)).indices = ["x"] ∧
     (getIndices sampleIndicesState (GetIndicesOutcome.ok ["x"] 1)).totalIndices = 1 ∧
     (getIndices sampleIndicesState (GetIndicesOutcome.ok ["x"] 1)).dangerToasts =
       sampleIndicesState.dangerToasts) ∧
    ((getIndices sampleIndicesState (GetIndicesOutcome.notOk "err")).indices =
       sampleIndicesState.indices ∧
     (getIndices sampleIndicesState (GetIndicesOutcome.notOk "err")).totalIndices =
       sampleIndicesState.totalIndices ∧
     (getIndices sampleIndicesState (GetIndicesOutcome.notOk "err")).dangerToasts =
       sampleIndicesState.dangerToasts ++ ["err"]) ∧
    (getIndices sampleIndicesState (GetIndicesOutcome.notOk "err")).loadingIndices = false := by
  refine ⟨?_, ?_, ?_⟩
  · exact (getIndices_spec sampleIndicesState (GetIndicesOutcome.ok ["x"] 1)).1 ["x"] 1 rfl
  · exact (getIndices_spec sampleIndicesState (GetIndicesOutcome.notOk "err")).2.1 "err"
      (Or.inl rfl)
  · exact (getIndices_spec sampleIndicesState (GetIndicesOutcome.notOk "err")).2.2

/-- C10: with a search-bar parse error `onSearchChange` leaves the whole
state unchanged; without one it zeroes the pagination offset and stores the
new text and parsed query, every other field untouched. -/
theorem onSearchChange_spec (st : IndicesState) (args : SearchArgs) :
    (args.error ≠ none → onSearchChange st args = st) ∧
    (args.error = none →
      onSearchChange st args =
        { st with «from» := 0, search := args.queryText, query := args.query }) := by
  constructor
  · intro h
    have hsome : args.error.isSome = true := Option.ne_none_iff_isSome.mp h
    simp [onSearchChange, hsome]
  · intro h
    simp [onSearchChange, h]

/-- Witness for C10 at a concrete state, for both branches. -/
theorem onSearchChange_spec_witness :
    onSearchChange sampleIndicesState ⟨⟨"bad"⟩, "bad", some "parse error"⟩ =
      sampleIndicesState ∧
    onSearchChange sampleIndicesState ⟨⟨"new"⟩, "new", none⟩ =
      { sampleIndicesState with «from» := 0, search := "new", query := ⟨"new"⟩ } := by
  constructor
  · exact (onSearchChange_spec sampleIndicesState ⟨⟨"bad"⟩, "bad", some "parse error"⟩).1
      (by simp)
  · exact (onSearchChange_spec sampleIndicesState ⟨⟨"new"⟩, "new", none⟩).2 rfl

/-- C2: with no pending edits, a successful template simulation replaces
the entire form value by the simulation response (its mappings properties
converted from the object to the array representation), shows no
confirmation modal, resets the has-edit flag and raises the
template-matching flag, with the loading flag cleared. -/
theorem processSimulateResult_noEdit (st : DetailState) (result : SimResp)
    (choice : ModalChoice) (hedit : st.hasEdit = false) (hok : result.ok = true) :
    processSimulateResult st result choice =
      ({ value := applySimulationData result.response, hasEdit := false,
         isMatchingTemplate := true, templateSimulateLoading := false }, false) := by
  simp [processSimulateResult, hok, hedit]

/-- Witness for C2 at a concrete no-edit state and response. -/
theorem processSimulateResult_noEdit_witness :
    processSimulateResult
        { value := [("index", Json.str "i1")], hasEdit := false,
          isMatchingTemplate := false, templateSimulateLoading := true }
        { ok := true,
          response := [("index", Json.str "i1"),
            ("mappings", Json.obj [("properties", Json.obj [("f", Json.str "kw")])])] }
        ModalChoice.overwrite =
      ({ value := applySimulationData [("index", Json.str "i1"),
            ("mappings", Json.obj [("properties", Json.obj [("f", Json.str "kw")])])],
         hasEdit := false, isMatchingTemplate := true,
         templateSimulateLoading := false }, false) :=
  processSimulateResult_noEdit _ _ _ rfl rfl

/-- C3 counterexample: the claim "at most one simulation call is in flight
and no simulation state update happens after destroy" is false.  Two blurs
in quick succession put two requests in flight at once (the loading flag is
never checked before issuing), and a modal resolved after unmount still
updates state; the universally quantified claim is refuted. -/
theorem simMachine_counterexample :
    inFlightCount (simRun [SimEvent.blur, SimEvent.blur,
      SimEvent.timeoutFire 0, SimEvent.timeoutFire 1]) = 2 ∧
    (simRun [SimEvent.blur, SimEvent.timeoutFire 0,
      SimEvent.responseArrive 0 true, SimEvent.destroy,
      SimEvent.modalResolve 0]).updatesAfterDestroy = 1 ∧
    ¬ (∀ evs, inFlightCount (simRun evs) ≤ 1 ∧
        (simRun evs).updatesAfterDestroy = 0) := by
  refine ⟨rfl, rfl, fun h => ?_⟩
  have h1 := (h [SimEvent.blur, SimEvent.blur,
    SimEvent.timeoutFire 0, SimEvent.timeoutFire 1]).1
  revert h1
  decide

/-- C3 amended: the loading flag does track the in-flight call (raised when
a request is issued, cleared when its response is handled) and the handler
is inert after destroy at its two `destroyRef` checkpoints — but no handler
checks the flag before issuing another request, so overlapping requests are
possible, and the update performed when the confirmation modal resolves is
not guarded against destroy. -/
theorem simStep_guard_spec (m : SimMachine) (i : Nat) (ok : Bool) :
    (m.destroyed = true →
      (simStep m (SimEvent.timeoutFire i)).loading = m.loading ∧
      (simStep m (SimEvent.timeoutFire i)).isMatching = m.isMatching ∧
      (simStep m (SimEvent.timeoutFire i)).hasEdit = m.hasEdit ∧
      (simStep m (SimEvent.timeoutFire i)).changeCount = m.changeCount ∧
      (simStep m (SimEvent.responseArrive i ok)).loading = m.loading ∧
      (simStep m (SimEvent.responseArrive i ok)).isMatching = m.isMatching ∧
      (simStep m (SimEvent.responseArrive i ok)).hasEdit = m.hasEdit ∧
      (simStep m (SimEvent.responseArrive i ok)).changeCount = m.changeCount) ∧
    (m.destroyed = false → m.tasks[i]? = some BlurPc.delayWait →
      (simStep m (SimEvent.timeoutFire i)).loading = true) ∧
    (m.destroyed = false → m.tasks[i]? = some BlurPc.inFlight →
      (simStep m (SimEvent.responseArrive i ok)).loading = false) := by
  refine ⟨fun hd => ?_, fun hd ht => ?_, fun hd ht => ?_⟩
  · rcases hget : m.tasks[i]? with _ | pc
    · simp [simStep, hget]
    · cases pc <;> simp [simStep, hget, hd]
  · simp [simStep, ht, hd]
  · cases ok <;> cases hhe : m.hasEdit <;> simp [simStep, ht, hd, hhe]

/-- Witness for the C3 amended theorem at a concrete machine state. -/
theorem simStep_guard_spec_witness :
    (simStep { initSimMachine with tasks := [BlurPc.delayWait] }
      (SimEvent.timeoutFire 0)).loading = true ∧
    (simStep { initSimMachine with
                 destroyed := true
                 tasks := [BlurPc.delayWait] }
      (SimEvent.timeoutFire 0)).loading =
      ({ initSimMachine with
           destroyed := true
           tasks := [BlurPc.delayWait] } : SimMachine).loading := by
  constructor
  · exact (simStep_guard_spec { initSimMachine with tasks := [BlurPc.delayWait] } 0
      true).2.1 rfl rfl
  · exact ((simStep_guard_spec { initSimMachine with
      destroyed := true
      tasks := [BlurPc.delayWait] } 0 true).1 rfl).1


/-- C7 counterexample: in edit mode with `policySeqNo`/`policyPrimaryTerm`
still null, `onSubmit` has a non-empty id and a valid JSON string and yet
issues no `putPolicy` call, so "a call is issued if and only if the id is
non-empty and the JSON parses" is false on the code. -/
theorem onSubmit_counterexample :
    cpMissingSeqNoState.policyId ≠ "" ∧
    (parseJson cpMissingSeqNoState.jsonString).isSome = true ∧
    (onSubmit true cpMissingSeqNoState (PutPolicyOutcome.ok "x")).putPolicyCalled = false ∧
    (onSubmit true cpMissingSeqNoState (PutPolicyOutcome.ok "x")).dangerToasts =
      ["Could not update policy without seqNo and primaryTerm"] := by
  refine ⟨by decide, rfl, rfl, rfl⟩

/-- C7 amended: `putPolicy` is called iff the id is non-empty, the JSON
parses, and — in edit mode — seqNo and primaryTerm are present (otherwise a
danger toast reports the missing seqNo/primaryTerm); an empty id only sets
the `Required` id error; invalid JSON only toasts `Invalid Policy JSON`;
and `isSubmitting` is false after every submission attempt. -/
theorem onSubmit_spec (isEdit : Bool) (st : CreatePolicyState) (o : PutPolicyOutcome) :
    ((onSubmit isEdit st o).putPolicyCalled =
      (!(st.policyId == "") && (parseJson st.jsonString).isSome &&
        (!isEdit || (st.policySeqNo.isSome && st.policyPrimaryTerm.isSome)))) ∧
    (st.policyId = "" →
      (onSubmit isEdit st o).state.policyIdError = "Required" ∧
      (onSubmit isEdit st o).putPolicyCalled = false ∧
      (onSubmit isEdit st o).dangerToasts = [] ∧
      (onSubmit isEdit st o).successToasts = [] ∧
      (onSubmit isEdit st o).state.policyId = st.policyId ∧
      (onSubmit isEdit st o).state.jsonString = st.jsonString) ∧
    (st.policyId ≠ "" → parseJson st.jsonString = none →
      (onSubmit isEdit st o).dangerToasts = ["Invalid Policy JSON"] ∧
      (onSubmit isEdit st o).putPolicyCalled = false ∧
      (onSubmit isEdit st o).state.policyIdError = st.policyIdError) ∧
    (isEdit = true → st.policyId ≠ "" → (parseJson st.jsonString).isSome = true →
      (st.policySeqNo = none ∨ st.policyPrimaryTerm = none) →
      (onSubmit isEdit st o).dangerToasts =
        ["Could not update policy without seqNo and primaryTerm"] ∧
      (onSubmit isEdit st o).putPolicyCalled = false) ∧
    (onSubmit isEdit st o).state.isSubmitting = false := by
  by_cases hid : st.policyId = ""
  · refine ⟨by simp [onSubmit, hid], fun _ => by simp [onSubmit, hid],
      fun hne _ => absurd hid hne, fun _ hne _ _ => absurd hid hne,
      by simp [onSubmit, hid]⟩
  · have hbeq : (st.policyId == "") = false := by simp [hid]
    cases hp : parseJson st.jsonString with
    | none =>
      refine ⟨by simp [onSubmit, hid, hp, hbeq], fun h => absurd h hid,
        fun _ _ => by simp [onSubmit, hid, hp], fun _ _ hs _ => by simp at hs,
        by simp [onSubmit, hid, hp]⟩
    | some p =>
      cases isEdit with
      | false =>
        refine ⟨?_, fun h => absurd h hid, fun _ hn => by simp at hn,
          fun h _ _ _ => by simp at h, ?_⟩
        · cases o <;> simp [onSubmit, hid, hp, onCreate, hbeq]
        · cases o <;> simp [onSubmit, hid, hp, onCreate]
      | true =>
        rcases hseq : st.policySeqNo with _ | sq
        · refine ⟨by simp [onSubmit, hid, hp, onUpdate, hseq, hbeq],
            fun h => absurd h hid, fun _ hn => by simp at hn,
            fun _ _ _ _ => by simp [onSubmit, hid, hp, onUpdate, hseq],
            by simp [onSubmit, hid, hp, onUpdate, hseq]⟩
        · rcases hpt : st.policyPrimaryTerm with _ | pt
          · refine ⟨by simp [onSubmit, hid, hp, onUpdate, hseq, hpt, hbeq],
              fun h => absurd h hid, fun _ hn => by simp at hn,
              fun _ _ _ _ => by simp [onSubmit, hid, hp, onUpdate, hseq, hpt],
              by simp [onSubmit, hid, hp, onUpdate, hseq, hpt]⟩
          · refine ⟨?_, fun h => absurd h hid, fun _ hn => by simp at hn,
              fun _ _ _ hor => ?_, ?_⟩
            · cases o <;> simp [onSubmit, hid, hp, onUpdate, hseq, hpt, hbeq]
            · rcases hor with hor | hor <;> simp at hor
            · cases o <;> simp [onSubmit, hid, hp, onUpdate, hseq, hpt]

/-- Witness for the C7 amended theorem: a create-mode submission with a
valid id and JSON does call `putPolicy`, and an empty id sets only the
`Required` error. -/
theorem onSubmit_spec_witness :
    (onSubmit false { cpMissingSeqNoState with
        policySeqNo := some 1
        policyPrimaryTerm := some 1 } (PutPolicyOutcome.ok "x")).putPolicyCalled =
      (!((cpMissingSeqNoState.policyId == "")) &&
        (parseJson cpMissingSeqNoState.jsonString).isSome && true) ∧
    (onSubmit false { cpMissingSeqNoState with policyId := "" }
      (PutPolicyOutcome.ok "x")).state.policyIdError = "Required" := by
  constructor
  · exact (onSubmit_spec false { cpMissingSeqNoState with
      policySeqNo := some 1
      policyPrimaryTerm := some 1 } (PutPolicyOutcome.ok "x")).1
  · exact ((onSubmit_spec false { cpMissingSeqNoState with policyId := "" }
      (PutPolicyOutcome.ok "x")).2.1 rfl).1

/-- C5: both editor texts are the serialization of an object with the same
bindings as the respective settings (the original from `oldValue`, the
value from the current settings) and with ascending top-level keys; and an
edit in the editor parses the text with `JSON.parse` and stores exactly
the parse result as the new `settings` of the form value, raising the
has-edit flag. -/
theorem advancedSettings_spec (old cur : Option JsObj) (st : DetailState) (txt : String)
    (j : Json) (hold : (jsKeys (old.getD [])).Nodup) (hcur : (jsKeys (cur.getD [])).Nodup)
    (hp : parseJson txt = some j) :
    (renderPropsOriginal old = stringifyJson 0 (Json.obj (getOrderedJson (old.getD []))) ∧
      (∀ k, jsLookup (getOrderedJson (old.getD [])) k = jsLookup (old.getD []) k) ∧
      List.Sorted (· ≤ ·) (jsKeys (getOrderedJson (old.getD [])))) ∧
    (renderPropsValue cur = stringifyJson 0 (Json.obj (getOrderedJson (cur.getD []))) ∧
      (∀ k, jsLookup (getOrderedJson (cur.getD [])) k = jsLookup (cur.getD []) k) ∧
      List.Sorted (· ≤ ·) (jsKeys (getOrderedJson (cur.getD [])))) ∧
    advancedSettingsOnChange st txt = some (onValueChange st "settings" j) ∧
    jsLookup (onValueChange st "settings" j).value "settings" = some j ∧
    (onValueChange st "settings" j).hasEdit = true := by
  refine ⟨⟨rfl, fun k => jsLookup_getOrderedJson _ hold k, getOrderedJson_keys_sorted _ hold⟩,
    ⟨rfl, fun k => jsLookup_getOrderedJson _ hcur k, getOrderedJson_keys_sorted _ hcur⟩,
    ?_, ?_, ?_⟩
  · simp [advancedSettingsOnChange, hp]
  · simp [onValueChange, jsLookup_jsSet]
  · rfl

/-- Witness for C5 at concrete settings and a concrete edited text. -/
theorem advancedSettings_spec_witness :
    advancedSettingsOnChange
        { value := [("index", Json.str "i1")], hasEdit := false,
          isMatchingTemplate := false, templateSimulateLoading := false }
        "\x7b\"index.number_of_replicas\": 2\x7d" =
      some (onValueChange
        { value := [("index", Json.str "i1")], hasEdit := false,
          isMatchingTemplate := false, templateSimulateLoading := false }
        "settings" (Json.obj [("index.number_of_replicas", Json.num 2)])) ∧
    List.Sorted (· ≤ ·)
      (jsKeys (getOrderedJson [("b", Json.num 2), ("a", Json.num 1)])) := by
  have h := advancedSettings_spec (some [("b", Json.num 2), ("a", Json.num 1)])
    (some [("x", Json.num 0)])
    { value := [("index", Json.str "i1")], hasEdit := false,
      isMatchingTemplate := false, templateSimulateLoading := false }
    "\x7b\"index.number_of_replicas\": 2\x7d"
    (Json.obj [("index.number_of_replicas", Json.num 2)])
    (by decide) (by decide) rfl
  exact ⟨h.2.2.1, h.1.2.2⟩

theorem transformArrayToObject_isObj (j : Json) :
    ∃ l, transformArrayToObject j = Json.obj l := by
  cases j <;> exact ⟨_, rfl⟩

theorem jsonMergeVal_obj_src (rp : Json) (l : JsObj) :
    ∃ l', jsonMergeVal rp (Json.obj l) = Json.obj l' := by
  cases rp with
  | null => exact ⟨l, by simp [jsonMergeVal]⟩
  | bool b => exact ⟨l, by simp [jsonMergeVal]⟩
  | num n => exact ⟨l, by simp [jsonMergeVal]⟩
  | str s => exact ⟨l, by simp [jsonMergeVal]⟩
  | arr xs => exact ⟨l, by simp [jsonMergeVal]⟩
  | obj d => exact ⟨mergeObjInto d l, by simp [jsonMergeVal]⟩

theorem draftMappingsProperties_isObj (v : JsObj) :
    ∃ dl, draftMappingsProperties v = Json.obj dl := by
  rw [draftMappingsProperties]
  exact transformArrayToObject_isObj _

theorem cancelMerge_spec (v r : JsObj) (s : String)
    (hidx : jsLookup v "index" = some (Json.str s))
    (hv : (jsKeys v).Nodup) (hr : (jsKeys r).Nodup) :
    jsLookup (applySimulationData (cancelMergedValue v r)) "index" = some (Json.str s) ∧
    (∀ k, k ≠ "index" → k ≠ "mappings" →
      jsLookup (applySimulationData (cancelMergedValue v r)) k =
        match jsLookup r k, jsLookup v k with
        | some rv, some dv => some (jsonMergeVal rv dv)
        | some rv, none => some rv
        | none, some dv => some dv
        | none, none => none) ∧
    (∀ rm, jsLookup r "mappings" = some (Json.obj rm) →
      jsLookup (applySimulationData (cancelMergedValue v r)) "mappings" =
        some (Json.obj [("properties", transformObjectToArray
          (match jsLookup rm "properties" with
           | some rp => jsonMergeVal rp (draftMappingsProperties v)
           | none => draftMappingsProperties v))])) ∧
    (jsLookup r "mappings" = none →
      jsLookup (applySimulationData (cancelMergedValue v r)) "mappings" =
        some (Json.obj [("properties",
          transformObjectToArray (draftMappingsProperties v))])) := by
  have h2 : ("mappings" : String) ≠ "index" := by decide
  have hnodfv : (jsKeys (formatValueOf v)).Nodup := by
    rw [formatValueOf]
    exact jsKeys_jsSet_nodup _ _ _ (jsKeys_jsSpread_nodup v _ (by simp [jsKeys]))
  have hfv_map : jsLookup (formatValueOf v) "mappings" =
      some (Json.obj [("properties", draftMappingsProperties v)]) := by
    rw [formatValueOf, jsLookup_jsSet, if_pos rfl]
  have hfv_idx : jsLookup (formatValueOf v) "index" = some (Json.str s) := by
    rw [formatValueOf, jsLookup_jsSet, if_neg h2, jsLookup_jsSpread v _ _ hv, hidx]
  have hfv_other : ∀ k, k ≠ "index" → k ≠ "mappings" →
      jsLookup (formatValueOf v) k = jsLookup v k := by
    intro k hki hkm
    rw [formatValueOf, jsLookup_jsSet, if_neg (fun hh => hkm hh.symm),
      jsLookup_jsSpread v _ _ hv]
    cases hvk : jsLookup v k with
    | some w => rfl
    | none =>
      have hik : ¬ ("index" : String) = k := fun hh => hki hh.symm
      simp [jsLookup, hik]
  have hstep1_other : ∀ k, k ≠ "index" →
      jsLookup (mergeObjInto
        [("index", jsOrDefault (jsLookup v "index") (Json.str ""))] r) k =
        jsLookup r k := by
    intro k hki
    have hik : ¬ ("index" : String) = k := fun hh => hki hh.symm
    rw [jsLookup_mergeObjInto r _ k hr]
    cases hrk : jsLookup r k with
    | some w => simp [jsLookup, hik]
    | none => simp [jsLookup, hik]
  have hMlookup : ∀ k, jsLookup (cancelMergedValue v r) k =
      match jsLookup (formatValueOf v) k with
      | some sv =>
          some (match jsLookup (mergeObjInto
              [("index", jsOrDefault (jsLookup v "index") (Json.str ""))] r) k with
            | some dv => jsonMergeVal dv sv
            | none => sv)
      | none => jsLookup (mergeObjInto
          [("index", jsOrDefault (jsLookup v "index") (Json.str ""))] r) k := by
    intro k
    exact jsLookup_mergeObjInto (formatValueOf v) _ k hnodfv
  have hfinal_map : jsLookup (applySimulationData (cancelMergedValue v r)) "mappings" =
      some (Json.obj [("properties", transformObjectToArray
        (jsOrDefault (mappingsPropertiesOf (cancelMergedValue v r)) (Json.obj [])))]) := by
    rw [applySimulationData, jsLookup_jsSet, if_pos rfl]
  have hfinal_other : ∀ k, k ≠ "mappings" →
      jsLookup (applySimulationData (cancelMergedValue v r)) k =
        jsLookup (cancelMergedValue v r) k := by
    intro k hkm
    rw [applySimulationData, jsLookup_jsSet, if_neg (fun hh => hkm hh.symm)]
  obtain ⟨dl, hdl⟩ := draftMappingsProperties_isObj v
  refine ⟨?_, ?_, ?_, ?_⟩
  · rw [hfinal_other "index" (fun hh => h2 hh.symm), hMlookup "index", hfv_idx]
    cases hs1 : jsLookup (mergeObjInto
        [("index", jsOrDefault (jsLookup v "index") (Json.str ""))] r) "index" with
    | some dv => simp [jsonMergeVal_str]
    | none => simp
  · intro k hki hkm
    rw [hfinal_other k hkm, hMlookup k, hfv_other k hki hkm, hstep1_other k hki]
    cases hrk : jsLookup r k <;> cases hvk : jsLookup v k <;> simp
  · intro rm hrm
    rw [hfinal_map]
    have hMmap : jsLookup (cancelMergedValue v r) "mappings" =
        some (jsonMergeVal (Json.obj rm)
          (Json.obj [("properties", draftMappingsProperties v)])) := by
      rw [hMlookup "mappings", hfv_map, hstep1_other "mappings" h2, hrm]
    have hprops : mappingsPropertiesOf (cancelMergedValue v r) =
        some (match jsLookup rm "properties" with
              | some rp => jsonMergeVal rp (draftMappingsProperties v)
              | none => draftMappingsProperties v) := by
      rw [mappingsPropertiesOf, hMmap]
      rw [show jsonMergeVal (Json.obj rm)
          (Json.obj [("properties", draftMappingsProperties v)]) =
          Json.obj (mergeObjInto rm [("properties", draftMappingsProperties v)]) from by
        simp [jsonMergeVal]]
      show jsLookup (mergeObjInto rm [("properties", draftMappingsProperties v)])
        "properties" = _
      rw [jsLookup_mergeObjInto _ rm "properties" (by simp [jsKeys])]
      simp [jsLookup]
    obtain ⟨ml, hml⟩ : ∃ ml, (match jsLookup rm "properties" with
        | some rp => jsonMergeVal rp (draftMappingsProperties v)
        | none => draftMappingsProperties v) = Json.obj ml := by
      cases hrp : jsLookup rm "properties" with
      | none => exact ⟨dl, by simp [hdl]⟩
      | some rp =>
        rw [hdl]
        exact jsonMergeVal_obj_src rp dl
    rw [hprops, hml]
    simp [jsOrDefault]
  · intro hrm
    rw [hfinal_map]
    have hMmap : jsLookup (cancelMergedValue v r) "mappings" =
        some (Json.obj [("properties", draftMappingsProperties v)]) := by
      rw [hMlookup "mappings", hfv_map, hstep1_other "mappings" h2, hrm]
    have hprops : mappingsPropertiesOf (cancelMergedValue v r) =
        some (draftMappingsProperties v) := by
      rw [mappingsPropertiesOf, hMmap]
      simp [jsGetField, jsLookup]
    rw [hprops, hdl]
    simp [jsOrDefault]

/-- C1: when a successful simulation finds pending edits and the user picks
"Merge your changes with template", the confirmation modal was shown and
the resulting form value is the deep merge in which the current draft takes
precedence over the simulation response: the index field equals the current
index name, every other top-level field is the recursive lodash merge of
the response's value under the draft's (fields the draft lacks are
inherited from the response), and the mappings properties are the merge of
the template properties under the draft's, converted back to the array
representation for the form. -/
theorem processSimulateResult_merge (st : DetailState) (result : SimResp) (s : String)
    (hedit : st.hasEdit = true) (hok : result.ok = true)
    (hidx : jsLookup st.value "index" = some (Json.str s)) (hs : s ≠ "")
    (hval : (jsKeys st.value).Nodup) (hresp : (jsKeys result.response).Nodup) :
    (processSimulateResult st result ModalChoice.mergeChanges).2 = true ∧
    jsLookup (processSimulateResult st result ModalChoice.mergeChanges).1.value "index" =
      some (Json.str s) ∧
    (∀ k, k ≠ "index" → k ≠ "mappings" →
      jsLookup (processSimulateResult st result ModalChoice.mergeChanges).1.value k =
        match jsLookup result.response k, jsLookup st.value k with
        | some rv, some dv => some (jsonMergeVal rv dv)
        | some rv, none => some rv
        | none, some dv => some dv
        | none, none => none) ∧
    (∀ rm, jsLookup result.response "mappings" = some (Json.obj rm) →
      jsLookup (processSimulateResult st result ModalChoice.mergeChanges).1.value
          "mappings" =
        some (Json.obj [("properties", transformObjectToArray
          (match jsLookup rm "properties" with
           | some rp => jsonMergeVal rp (draftMappingsProperties st.value)
           | none => draftMappingsProperties st.value))])) ∧
    (jsLookup result.response "mappings" = none →
      jsLookup (processSimulateResult st result ModalChoice.mergeChanges).1.value
          "mappings" =
        some (Json.obj [("properties",
          transformObjectToArray (draftMappingsProperties st.value))])) := by
  have hout : processSimulateResult st result ModalChoice.mergeChanges =
      ({ st with
          value := applySimulationData (cancelMergedValue st.value result.response)
          hasEdit := false
          isMatchingTemplate := true
          templateSimulateLoading := false }, true) := by
    simp [processSimulateResult, hok, hedit]
  have h := cancelMerge_spec st.value result.response s hidx hval hresp
  rw [hout]
  exact ⟨rfl, h.1, h.2.1, h.2.2.1, h.2.2.2⟩

/-- Witness for C1: a concrete draft with an alias, a mappings field and a
non-empty index name, merged with a concrete simulation response carrying
settings and template mappings. -/
theorem processSimulateResult_merge_witness :
    (processSimulateResult
        { value := [("index", Json.str "my-index"),
            ("aliases", Json.obj [("al1", Json.obj [])]),
            ("mappings", Json.obj [("properties", Json.arr [Json.obj
              [("fieldName", Json.str "f1"), ("fieldValue", Json.str "text")]])])],
          hasEdit := true, isMatchingTemplate := false, templateSimulateLoading := true }
        { ok := true,
          response := [("index", Json.str "other"),
            ("settings", Json.obj [("index.number_of_shards", Json.num 3)]),
            ("mappings", Json.obj [("properties",
              Json.obj [("f2", Json.str "keyword")])])] }
        ModalChoice.mergeChanges).2 = true ∧
    jsLookup (processSimulateResult
        { value := [("index", Json.str "my-index"),
            ("aliases", Json.obj [("al1", Json.obj [])]),
            ("mappings", Json.obj [("properties", Json.arr [Json.obj
              [("fieldName", Json.str "f1"), ("fieldValue", Json.str "text")]])])],
          hasEdit := true, isMatchingTemplate := false, templateSimulateLoading := true }
        { ok := true,
          response := [("index", Json.str "other"),
            ("settings", Json.obj [("index.number_of_shards", Json.num 3)]),
            ("mappings", Json.obj [("properties",
              Json.obj [("f2", Json.str "keyword")])])] }
        ModalChoice.mergeChanges).1.value "index" = some (Json.str "my-index") ∧
    jsLookup (processSimulateResult
        { value := [("index", Json.str "my-index"),
            ("aliases", Json.obj [("al1", Json.obj [])]),
            ("mappings", Json.obj [("properties", Json.arr [Json.obj
              [("fieldName", Json.str "f1"), ("fieldValue", Json.str "text")]])])],
          hasEdit := true, isMatchingTemplate := false, templateSimulateLoading := true }
        { ok := true,
          response := [("index", Json.str "other"),
            ("settings", Json.obj [("index.number_of_shards", Json.num 3)]),
            ("mappings", Json.obj [("properties",
              Json.obj [("f2", Json.str "keyword")])])] }
        ModalChoice.mergeChanges).1.value "mappings" =
      some (Json.obj [("properties", transformObjectToArray
        (jsonMergeVal (Json.obj [("f2", Json.str "keyword")])
          (draftMappingsProperties [("index", Json.str "my-index"),
            ("aliases", Json.obj [("al1", Json.obj [])]),
            ("mappings", Json.obj [("properties", Json.arr [Json.obj
              [("fieldName", Json.str "f1"), ("fieldValue", Json.str "text")]])])])))]) := by
  have h := processSimulateResult_merge
    { value := [("index", Json.str "my-index"),
        ("aliases", Json.obj [("al1", Json.obj [])]),
        ("mappings", Json.obj [("properties", Json.arr [Json.obj
          [("fieldName", Json.str "f1"), ("fieldValue", Json.str "text")]])])],
      hasEdit := true, isMatchingTemplate := false, templateSimulateLoading := true }
    { ok := true,
      response := [("index", Json.str "other"),
        ("settings", Json.obj [("index.number_of_shards", Json.num 3)]),
        ("mappings", Json.obj [("properties",
          Json.obj [("f2", Json.str "keyword")])])] }
    "my-index" rfl rfl rfl (by decide) (by decide) (by decide)
  exact ⟨h.1, h.2.1, h.2.2.2.1 [("properties", Json.obj [("f2", Json.str "keyword")])] rfl⟩
